import Mathlib

/-!
# Hologram demo, Android shell (`Demos/Hologram/ShellAndroid.cpp`)

A shallow embedding of the Android platform shell of the Hologram demo:

* `PosixTimer.get`            the monotonic timer (source lines 47-66),
* `load_vk`                   the driver loader (lines 117-135),
* `on_app_cmd`                the lifecycle command handler (lines 149-168),
* `on_input_event`            the input handler (lines 170-187),
* `drain`, `run_iterations`, `run`   the run loop (lines 194-227).

Conventions.

* Machine integers are `Int`.  The clock values are the non-negative fields that
  `clock_gettime(CLOCK_MONOTONIC, _)` produces, and every intermediate value of
  `PosixTimer::get` lies between `-1` and `10^9` or is a difference of two such
  seconds counts, so no operation leaves the range of `long` or `time_t`.
* Pointers are `Option Nat`; `none` is `nullptr`.
* A failing `assert` ends the computation: the function returns `none`.
* The `double` that `PosixTimer::get` returns is computed over `ℚ`, that is, exactly;
  rounding is not modelled.
* The base class `Shell`, the game, the dynamic loader, the looper and the native
  activity are collaborators outside this file.  A call into one of them is recorded
  as a `Call`; every function returns the list of calls it made, oldest first.
* The looper and the dynamic loader are oracles: what `ALooper_pollAll`, `dlopen`,
  `dlsym` and `clock_gettime` answer is an argument of the model.
-/

namespace Hologram

/-! ## Platform constants (NDK headers `android_native_app_glue.h`, `android/input.h`) -/

/-- Command code `APP_CMD_INIT_WINDOW` of the native app glue. -/
def APP_CMD_INIT_WINDOW : Int := 1

/-- Command code `APP_CMD_TERM_WINDOW` of the native app glue. -/
def APP_CMD_TERM_WINDOW : Int := 2

/-- Command code `APP_CMD_WINDOW_RESIZED` of the native app glue. -/
def APP_CMD_WINDOW_RESIZED : Int := 3

/-- Command code `APP_CMD_STOP` of the native app glue. -/
def APP_CMD_STOP : Int := 14

/-- Input event type `AINPUT_EVENT_TYPE_MOTION`. -/
def AINPUT_EVENT_TYPE_MOTION : Int := 2

/-- Bit mask `AMOTION_EVENT_ACTION_MASK` selecting the action code of a motion event. -/
def AMOTION_EVENT_ACTION_MASK : Int := 0xff

/-- Motion action `AMOTION_EVENT_ACTION_UP`. -/
def AMOTION_EVENT_ACTION_UP : Int := 1

/-! ## Data model -/

/-- The C `struct timespec` filled in by `clock_gettime`. -/
structure timespec where
  tv_sec : Int
  tv_nsec : Int
  deriving DecidableEq, Repr

/-- Keys of `Game::Key`; this file names only `KEY_SPACE`. -/
inductive Key where
  | KEY_SPACE
  | other (code : Nat)
  deriving DecidableEq, Repr

/-- Calls that the shell makes into its collaborators. -/
inductive Call where
  /-- The call `Shell::create_context()` -/
  | create_context
  /-- The call `Shell::destroy_context()` -/
  | destroy_context
  /-- The call `Shell::resize_swapchain(width_hint, height_hint)` -/
  | resize_swapchain (width_hint height_hint : Nat)
  /-- The call `ANativeActivity_finish(app_.activity)` -/
  | ANativeActivity_finish
  /-- The call `game_.on_key(key)` -/
  | on_key (key : Key)
  /-- The call `ALooper_pollAll(timeout, nullptr, nullptr, &source)` -/
  | ALooper_pollAll (timeout : Int)
  /-- The call `Shell::acquire_back_buffer()` -/
  | acquire_back_buffer
  /-- The call `timer.get()`, with the value it returned -/
  | timer_get (t : ℚ)
  /-- The call `Shell::add_game_time(time)`, before the cast of the argument to `float` -/
  | add_game_time (time : ℚ)
  /-- The call `Shell::present_back_buffer()` -/
  | present_back_buffer
  /-- The call `dlopen("libvulkan.so", RTLD_LAZY)` -/
  | dlopen
  /-- The call `dlsym(handle, "vkGetInstanceProcAddr")` -/
  | dlsym (handle : Nat)
  /-- The call `dlclose(handle)` -/
  | dlclose (handle : Nat)
  /-- The call `dlerror()` -/
  | dlerror
  deriving DecidableEq, Repr

/-- The part of an `AInputEvent` that the shell reads: `AInputEvent_getType(event)` and
`AMotionEvent_getAction(event)`. -/
structure AInputEvent where
  getType : Int
  getAction : Int
  deriving DecidableEq, Repr

/-- The fields of `ShellAndroid` and of its `android_app` that this file reads or writes:
`settings_.animate`, `app_.window`, `app_.destroyRequested` and `lib_handle_`. -/
structure ShellAndroid where
  animate : Bool
  window : Option Nat
  destroyRequested : Int
  lib_handle_ : Option Nat
  deriving DecidableEq, Repr

/-! ## `PosixTimer` (lines 35-70) -/

namespace PosixTimer

/-- The constant `one_s_in_ns` of `PosixTimer::get`. -/
def one_s_in_ns : Int := 1000 * 1000 * 1000

/-- Lines 55-63 of `PosixTimer::get`: the whole seconds `s` and the nanoseconds `ns`
between the baseline `start_` and the instant `now`; `none` when `assert(s > 0)` fails. -/
def get_parts (start_ now : timespec) : Option (Int × Int) :=
  let s := now.tv_sec - start_.tv_sec
  if now.tv_nsec > start_.tv_nsec then
    some (s, now.tv_nsec - start_.tv_nsec)
  else if s > 0 then
    some (s - 1, one_s_in_ns - (start_.tv_nsec - now.tv_nsec))
  else
    none

/-- The function `PosixTimer::get`: line 65 applied to the parts, over exact arithmetic. -/
def get (start_ now : timespec) : Option ℚ :=
  (get_parts start_ now).map fun p => (p.1 : ℚ) + (p.2 : ℚ) / (one_s_in_ns : ℚ)

end PosixTimer

/-! ## `ShellAndroid::load_vk` (lines 117-135) -/

/-- Answers of the dynamic loader: the handle `dlopen` returns, the symbol `dlsym`
returns for a handle, and the text `dlerror` returns. -/
structure Loader where
  dlopen : Option Nat
  dlsym : Nat → Option Nat
  dlerror : String

/-- The function `ShellAndroid::load_vk`.  The result is the thrown message or the returned
symbol, the shell afterwards, and the calls made. -/
def load_vk (sh : ShellAndroid) (ld : Loader) : Except String Nat × ShellAndroid × List Call :=
  let handle := ld.dlopen
  let symbol : Option Nat :=
    match handle with
    | some h => ld.dlsym h
    | none => none
  let opened : List Call :=
    match handle with
    | some h => [Call.dlopen, Call.dlsym h]
    | none => [Call.dlopen]
  match symbol with
  | none =>
    let closed : List Call :=
      match handle with
      | some h => [Call.dlclose h]
      | none => []
    (Except.error ld.dlerror, sh, opened ++ closed ++ [Call.dlerror])
  | some sym =>
    (Except.ok sym, { sh with lib_handle_ := handle }, opened)

/-! ## Event handlers (lines 149-187) -/

/-- The function `ShellAndroid::on_app_cmd`: the shell afterwards and the calls made. -/
def on_app_cmd (sh : ShellAndroid) (cmd : Int) : ShellAndroid × List Call :=
  if cmd = APP_CMD_INIT_WINDOW then
    (sh, [Call.create_context, Call.resize_swapchain 0 0])
  else if cmd = APP_CMD_TERM_WINDOW then
    (sh, [Call.destroy_context])
  else if cmd = APP_CMD_WINDOW_RESIZED then
    (sh, [Call.resize_swapchain 0 0])
  else if cmd = APP_CMD_STOP then
    (sh, [Call.ANativeActivity_finish])
  else
    (sh, [])

/-- The function `ShellAndroid::on_input_event`: the returned flag, the shell afterwards and
the calls made. -/
def on_input_event (sh : ShellAndroid) (event : AInputEvent) : Bool × ShellAndroid × List Call :=
  if event.getType ≠ AINPUT_EVENT_TYPE_MOTION then
    (false, sh, [])
  else if Int.land event.getAction AMOTION_EVENT_ACTION_MASK = AMOTION_EVENT_ACTION_UP then
    (true, sh, [Call.on_key Key.KEY_SPACE])
  else
    (false, sh, [])

/-- One callback of the shell invoked by the native app glue: `app_.onAppCmd` or
`app_.onInputEvent`. -/
inductive Callback where
  | onAppCmd (cmd : Int)
  | onInputEvent (event : AInputEvent)
  deriving DecidableEq, Repr

/-- Invoke callbacks in order: the shell afterwards and the calls made. -/
def dispatch : ShellAndroid → List Callback → ShellAndroid × List Call
  | sh, [] => (sh, [])
  | sh, Callback.onAppCmd cmd :: rest =>
    let r := on_app_cmd sh cmd
    let d := dispatch r.1 rest
    (d.1, r.2 ++ d.2)
  | sh, Callback.onInputEvent event :: rest =>
    let r := on_input_event sh event
    let d := dispatch r.2.1 rest
    (d.1, r.2.2 ++ d.2)

/-! ## The run loop (lines 194-227) -/

/-- What `source->process(&app_, source)` does for one poll source: the callbacks of the
shell it invokes, and the values of `app_.window` and `app_.destroyRequested` it leaves. -/
structure android_poll_source where
  callbacks : List Callback
  window : Option Nat
  destroyRequested : Int
  deriving DecidableEq, Repr

/-- One answer of `ALooper_pollAll`: the returned identifier and the source stored through
the out-parameter (`none` is a null source). -/
structure PollResult where
  ident : Int
  source : Option android_poll_source
  deriving DecidableEq, Repr

/-- The timeout of line 203: `(settings_.animate && app_.window) ? 0 : -1`. -/
def poll_timeout (sh : ShellAndroid) : Int :=
  if sh.animate && sh.window.isSome then 0 else -1

/-- The call `source->process(&app_, source)`. -/
def process (sh : ShellAndroid) (source : android_poll_source) : ShellAndroid × List Call :=
  let d := dispatch sh source.callbacks
  ({ d.1 with window := source.window, destroyRequested := source.destroyRequested }, d.2)

/-- The inner loop of `run` (lines 202-210), one poll answer per pass: the calls made, the
shell when the loop stops, and the answers left over after the negative answer that ends
the loop.  The last component is `none` when the answers run out before the loop ends. -/
def drain : ShellAndroid → List PollResult → List Call × ShellAndroid × Option (List PollResult)
  | sh, [] => ([], sh, none)
  | sh, p :: ps =>
    if p.ident < 0 then
      ([Call.ALooper_pollAll (poll_timeout sh)], sh, some ps)
    else
      let r : ShellAndroid × List Call :=
        match p.source with
        | some source => process sh source
        | none => (sh, [])
      let d := drain r.1 ps
      (Call.ALooper_pollAll (poll_timeout sh) :: (r.2 ++ d.1), d.2.1, d.2.2)

/-- One pass of the outer loop of `run`: the calls of the event drain, the shell after the
drain, and the calls made after the drain. -/
structure Iteration where
  drained : List Call
  shell : ShellAndroid
  frame : List Call
  deriving DecidableEq, Repr

/-- The outer loop of `run` (lines 200-226), at most `n` passes.  `clock k` is the value
returned by call number `k` of `timer.get()`, `current_time` the local of that name and
`k` the number of readings taken so far. -/
def run_iterations (clock : Nat → ℚ) :
    Nat → ShellAndroid → ℚ → Nat → List PollResult → List Iteration
  | 0, _, _, _, _ => []
  | n + 1, sh, current_time, k, polls =>
    match drain sh polls with
    | (cs, sh1, none) => [⟨cs, sh1, []⟩]
    | (cs, sh1, some rest) =>
      if sh1.destroyRequested ≠ 0 then
        [⟨cs, sh1, []⟩]
      else if sh1.window = none then
        ⟨cs, sh1, []⟩ :: run_iterations clock n sh1 current_time k rest
      else
        let t := clock k
        ⟨cs, sh1, [Call.acquire_back_buffer, Call.timer_get t,
            Call.add_game_time (t - current_time), Call.present_back_buffer]⟩
          :: run_iterations clock n sh1 t (k + 1) rest

/-- The calls of one pass, in order. -/
def Iteration.calls (it : Iteration) : List Call :=
  it.drained ++ it.frame

/-- The function `ShellAndroid::run`, observed for at most `n` passes of its outer loop: the
reading of line 198 followed by the calls of the passes. -/
def run (clock : Nat → ℚ) (n : Nat) (sh : ShellAndroid) (polls : List PollResult) : List Call :=
  Call.timer_get (clock 0) ::
    ((run_iterations clock n sh (clock 0) 1 polls).map Iteration.calls).flatten

/-! ## Properties of call traces and command sequences -/

/-- Some `c` in the list has no `o` anywhere before it.  With `o` the creation and `c` the
destruction of the context: a destroy before the first create. -/
def CloseBeforeOpen {α : Type} (o c : α) (l : List α) : Prop :=
  ∃ pre post, l = pre ++ c :: post ∧ o ∉ pre

/-- Two `c` in the list have no `o` between them.  With `o` the creation and `c` the
destruction of the context: two destroys without a create between them. -/
def DoubleClose {α : Type} (o c : α) (l : List α) : Prop :=
  ∃ pre mid post, l = pre ++ c :: (mid ++ c :: post) ∧ o ∉ mid

/-- Run the list through the two-state machine that `o` switches on and `c` switches off;
the result is `false` as soon as a `c` arrives while the machine is off. -/
def pairedFrom {α : Type} [DecidableEq α] (o c : α) : Bool → List α → Bool
  | _, [] => true
  | live, x :: xs =>
    if x = o then pairedFrom o c true xs
    else if x = c then live && pairedFrom o c false xs
    else pairedFrom o c live xs

/-- The context call that a lifecycle command stands for, if any. -/
def lifecycle_call (cmd : Int) : Option Call :=
  if cmd = APP_CMD_INIT_WINDOW then some Call.create_context
  else if cmd = APP_CMD_TERM_WINDOW then some Call.destroy_context
  else none

/-- The pointer release: a motion event whose masked action is `AMOTION_EVENT_ACTION_UP`. -/
def is_pointer_up (event : AInputEvent) : Prop :=
  event.getType = AINPUT_EVENT_TYPE_MOTION ∧
    Int.land event.getAction AMOTION_EVENT_ACTION_MASK = AMOTION_EVENT_ACTION_UP

/-- Calls that only the event handlers make. -/
def Call.isHandlerCall : Call → Bool
  | Call.create_context => true
  | Call.destroy_context => true
  | Call.resize_swapchain _ _ => true
  | Call.ANativeActivity_finish => true
  | Call.on_key _ => true
  | _ => false

/-- Calls that produce a frame: acquire, game-time update, present. -/
def Call.isFrameCall : Call → Bool
  | Call.acquire_back_buffer => true
  | Call.add_game_time _ => true
  | Call.present_back_buffer => true
  | _ => false

/-- Calls of the frame part of a pass: the frame calls and the timer reading. -/
def Call.isTimedCall : Call → Bool
  | Call.acquire_back_buffer => true
  | Call.timer_get _ => true
  | Call.add_game_time _ => true
  | Call.present_back_buffer => true
  | _ => false

/-- The timeouts of the `ALooper_pollAll` calls of a trace, in order. -/
def poll_timeouts (tr : List Call) : List Int :=
  tr.filterMap fun c =>
    match c with
    | Call.ALooper_pollAll timeout => some timeout
    | _ => none

/-- The durations passed to `add_game_time` in a trace, in order. -/
def durations (tr : List Call) : List ℚ :=
  tr.filterMap fun c =>
    match c with
    | Call.add_game_time time => some time
    | _ => none

/-- The value of `app_.window` once the poll answer `p` has been handled, `w` being the value
before: a source that is processed sets it, any other answer leaves it. -/
def window_after (w : Option Nat) (p : PollResult) : Option Nat :=
  if p.ident < 0 then w
  else
    match p.source with
    | some source => source.window
    | none => w

/-- The timeout that each poll should use, computed from the poll answers alone: the poll
that receives answer number `i` sees the window left by the answers before it. -/
def expected_timeouts (animate : Bool) : Option Nat → List PollResult → List Int
  | _, [] => []
  | w, p :: ps =>
    (if animate = true ∧ w ≠ none then 0 else -1) ::
      expected_timeouts animate (window_after w p) ps

/-- The calls of the frame number `j` (counted from 0) of a run: acquire, the reading
`clock (j + 1)`, the update by the time since the reading before, present. -/
def frame_of (clock : Nat → ℚ) (j : Nat) : List Call :=
  [Call.acquire_back_buffer, Call.timer_get (clock (j + 1)),
    Call.add_game_time (clock (j + 1) - clock j), Call.present_back_buffer]

/-- Sample readings of the timer: 1 at loop start, then 3, then 7. -/
def sample_clock : Nat → ℚ := fun k => if k = 0 then 1 else if k = 1 then 3 else 7

/-- Sample poll answers: a wake-up without event, a source that delivers window-created and
sets the window, then two polls that return without event. -/
def sample_polls : List PollResult :=
  [⟨-1, none⟩, ⟨0, some ⟨[Callback.onAppCmd APP_CMD_INIT_WINDOW], some 7, 0⟩⟩,
    ⟨-3, none⟩, ⟨-3, none⟩]

/-! ## The timer -/

namespace PosixTimer

/-- C1: for a baseline `(s0, n0)` and a strictly later instant `(s1, n1)`, both with
nanosecond fields in `[0, 10^9)`, `PosixTimer::get` passes its assertion and computes parts
`s` and `ns` with `s ≥ 0`, `0 < ns ≤ 10^9` and `s * 10^9 + ns = (s1 - s0) * 10^9 + (n1 - n0)`;
the value it returns, `s + ns / 10^9`, is the exact elapsed time in seconds and is not
negative. -/
theorem get_exact_across_wraparound (s0 n0 s1 n1 : Int)
    (hn0 : 0 ≤ n0 ∧ n0 < 10 ^ 9) (hn1 : 0 ≤ n1 ∧ n1 < 10 ^ 9)
    (hlater : s1 * 10 ^ 9 + n1 > s0 * 10 ^ 9 + n0) :
    ∃ s ns : Int,
      get_parts ⟨s0, n0⟩ ⟨s1, n1⟩ = some (s, ns) ∧
      0 ≤ s ∧ 0 < ns ∧ ns ≤ 10 ^ 9 ∧
      s * 10 ^ 9 + ns = (s1 - s0) * 10 ^ 9 + (n1 - n0) ∧
      get ⟨s0, n0⟩ ⟨s1, n1⟩ = some ((s : ℚ) + (ns : ℚ) / 10 ^ 9) ∧
      (s : ℚ) + (ns : ℚ) / 10 ^ 9 = (((s1 - s0) * 10 ^ 9 + (n1 - n0) : Int) : ℚ) / 10 ^ 9 ∧
      (0 : ℚ) ≤ (s : ℚ) + (ns : ℚ) / 10 ^ 9 := by
  obtain ⟨hn0a, hn0b⟩ := hn0
  obtain ⟨hn1a, hn1b⟩ := hn1
  have value_eq : ∀ s ns : Int, s * 10 ^ 9 + ns = (s1 - s0) * 10 ^ 9 + (n1 - n0) →
      (s : ℚ) + (ns : ℚ) / 10 ^ 9 = (((s1 - s0) * 10 ^ 9 + (n1 - n0) : Int) : ℚ) / 10 ^ 9 := by
    intro s ns h
    rw [← h]
    push_cast
    ring
  have value_nonneg : ∀ s ns : Int, 0 ≤ s → 0 < ns → (0 : ℚ) ≤ (s : ℚ) + (ns : ℚ) / 10 ^ 9 := by
    intro s ns hs hns
    have h1 : (0 : ℚ) ≤ (s : ℚ) := by exact_mod_cast hs
    have h2 : (0 : ℚ) ≤ (ns : ℚ) := by exact_mod_cast hns.le
    positivity
  by_cases hgt : n1 > n0
  · have hs : 0 ≤ s1 - s0 := by
      by_contra hneg
      have : s1 - s0 ≤ -1 := by omega
      nlinarith
    refine ⟨s1 - s0, n1 - n0, ?_, hs, by omega, by omega, rfl, ?_, value_eq _ _ rfl,
      value_nonneg _ _ hs (by omega)⟩
    · simp [get_parts, hgt]
    · simp [get, get_parts, hgt, one_s_in_ns]
      norm_num
  · have hs : 0 < s1 - s0 := by
      by_contra hneg
      have : s1 - s0 ≤ 0 := by omega
      nlinarith
    have hsum : (s1 - s0 - 1) * 10 ^ 9 + (10 ^ 9 - (n0 - n1)) = (s1 - s0) * 10 ^ 9 + (n1 - n0) := by
      ring
    refine ⟨s1 - s0 - 1, 10 ^ 9 - (n0 - n1), ?_, by omega, by omega, by omega, hsum, ?_,
      value_eq _ _ hsum, value_nonneg _ _ (by omega) (by omega)⟩
    · simp [get_parts, hgt, hs, one_s_in_ns]
    · simp [get, get_parts, hgt, hs, one_s_in_ns]
      norm_num

/-- Witness for C1, the example of the specification: baseline `(10 s, 900 000 000 ns)`,
now `(11 s, 100 000 000 ns)` gives `s = 0`, `ns = 200 000 000`, that is 0.2 s. -/
theorem get_exact_across_wraparound_witness :
    get_parts ⟨10, 900000000⟩ ⟨11, 100000000⟩ = some (0, 200000000) ∧
    ∃ s ns : Int,
      get_parts ⟨10, 900000000⟩ ⟨11, 100000000⟩ = some (s, ns) ∧
      0 ≤ s ∧ 0 < ns ∧ ns ≤ 10 ^ 9 ∧
      s * 10 ^ 9 + ns = (11 - 10) * 10 ^ 9 + (100000000 - 900000000) ∧
      get ⟨10, 900000000⟩ ⟨11, 100000000⟩ = some ((s : ℚ) + (ns : ℚ) / 10 ^ 9) ∧
      (s : ℚ) + (ns : ℚ) / 10 ^ 9 =
        (((11 - 10) * 10 ^ 9 + (100000000 - 900000000) : Int) : ℚ) / 10 ^ 9 ∧
      (0 : ℚ) ≤ (s : ℚ) + (ns : ℚ) / 10 ^ 9 :=
  ⟨by decide, get_exact_across_wraparound 10 900000000 11 100000000
    (by decide) (by decide) (by decide)⟩

/-- C9, the code at the failing input: when the current instant equals the baseline, the
comparison `now.tv_nsec > start_.tv_nsec` is false, the else branch runs with `s = 0` and
`assert(s > 0)` fails, so `PosixTimer::get` does not return a duration.  This is the call
of line 198 of `run` whenever the clock has not advanced since the constructor's `reset`. -/
theorem get_assert_fails_at_baseline (sec nsec : Int) :
    get_parts ⟨sec, nsec⟩ ⟨sec, nsec⟩ = none ∧ get ⟨sec, nsec⟩ ⟨sec, nsec⟩ = none ∧
    get_parts ⟨10, 900000000⟩ ⟨10, 900000000⟩ = none := by
  simp [get, get_parts]

end PosixTimer

/-! ## The driver loader -/

/-- C8: `load_vk` raises an error exactly when the open fails or the symbol is not resolved.
When the open succeeds and the symbol is not resolved, it makes the calls `dlopen`, `dlsym`,
`dlclose` of the opened handle, `dlerror`, in this order, and then raises: the handle is
closed once, before the message of the error is fetched.  When the open fails it closes
nothing.  On success it closes nothing, stores the opened handle in `lib_handle_` and
returns the resolved symbol. -/
theorem load_vk_releases_handle (sh : ShellAndroid) (ld : Loader) :
    ((∃ msg, (load_vk sh ld).1 = Except.error msg) ↔
      (ld.dlopen = none ∨ ∃ h, ld.dlopen = some h ∧ ld.dlsym h = none)) ∧
    (∀ h, ld.dlopen = some h → ld.dlsym h = none →
      load_vk sh ld = (Except.error ld.dlerror, sh,
        [Call.dlopen, Call.dlsym h, Call.dlclose h, Call.dlerror]) ∧
      (load_vk sh ld).2.2.count (Call.dlclose h) = 1 ∧
      ∀ h1, h1 ≠ h → Call.dlclose h1 ∉ (load_vk sh ld).2.2) ∧
    (ld.dlopen = none →
      load_vk sh ld = (Except.error ld.dlerror, sh, [Call.dlopen, Call.dlerror]) ∧
      ∀ h1, Call.dlclose h1 ∉ (load_vk sh ld).2.2) ∧
    (∀ h sym, ld.dlopen = some h → ld.dlsym h = some sym →
      load_vk sh ld = (Except.ok sym, { sh with lib_handle_ := some h },
        [Call.dlopen, Call.dlsym h]) ∧
      ∀ h1, Call.dlclose h1 ∉ (load_vk sh ld).2.2) := by
  refine ⟨?_, ?_, ?_, ?_⟩
  · cases hopen : ld.dlopen with
    | none => simp [load_vk, hopen]
    | some h =>
      cases hsym : ld.dlsym h with
      | none => simp [load_vk, hopen, hsym]
      | some sym => simp [load_vk, hopen, hsym]
  · intro h hopen hsym
    refine ⟨by simp [load_vk, hopen, hsym], by simp [load_vk, hopen, hsym], ?_⟩
    intro h1 hne
    simp [load_vk, hopen, hsym, hne]
  · intro hopen
    simp [load_vk, hopen]
  · intro h sym hopen hsym
    simp [load_vk, hopen, hsym]

/-- Witness for C8: a loader that opens the library as handle 7 and fails to resolve the
symbol; the handle 7 is closed before the error is raised. -/
theorem load_vk_releases_handle_witness :
    load_vk ⟨false, none, 0, none⟩ ⟨some 7, fun _ => none, "undefined symbol"⟩ =
      (Except.error "undefined symbol", ⟨false, none, 0, none⟩,
        [Call.dlopen, Call.dlsym 7, Call.dlclose 7, Call.dlerror]) :=
  ((load_vk_releases_handle ⟨false, none, 0, none⟩
    ⟨some 7, fun _ => none, "undefined symbol"⟩).2.1 7 rfl rfl).1

/-! ## The event handlers -/

/-- C2, the claim refuted: in the shell without a window, the window-resized command calls
`resize_swapchain(0, 0)`; the list of calls is not empty. -/
theorem on_app_cmd_resized_no_window_counterexample :
    (⟨false, none, 0, none⟩ : ShellAndroid).window = none ∧
    (on_app_cmd ⟨false, none, 0, none⟩ APP_CMD_WINDOW_RESIZED).2 = [Call.resize_swapchain 0 0] ∧
    ((on_app_cmd ⟨false, none, 0, none⟩ APP_CMD_WINDOW_RESIZED).2.count
      (Call.resize_swapchain 0 0) ≠ 0) := by
  decide

/-- C2 as amended: in every state, with or without a window, the window-resized command
makes exactly one call, `resize_swapchain(0, 0)`, and leaves the fields of the shell
unchanged. -/
theorem on_app_cmd_resized_unconditional (sh : ShellAndroid) :
    on_app_cmd sh APP_CMD_WINDOW_RESIZED = (sh, [Call.resize_swapchain 0 0]) := by
  simp [on_app_cmd, APP_CMD_WINDOW_RESIZED, APP_CMD_INIT_WINDOW, APP_CMD_TERM_WINDOW]

/-- C7: `on_input_event` returns handled and calls `game_.on_key(KEY_SPACE)` once, and nothing
else, exactly when the event is a motion event whose masked action is the pointer release;
for every other event it returns not handled and makes no call.  The fields of the shell
are unchanged, and neither the flag nor the calls depend on the shell. -/
theorem on_input_event_consumes_only_release (sh : ShellAndroid) (event : AInputEvent) :
    (((on_input_event sh event).1 = true ∧
        (on_input_event sh event).2.2 = [Call.on_key Key.KEY_SPACE]) ↔
      (event.getType = AINPUT_EVENT_TYPE_MOTION ∧
        Int.land event.getAction AMOTION_EVENT_ACTION_MASK = AMOTION_EVENT_ACTION_UP)) ∧
    (((on_input_event sh event).1 = false ∧ (on_input_event sh event).2.2 = []) ↔
      ¬ (event.getType = AINPUT_EVENT_TYPE_MOTION ∧
        Int.land event.getAction AMOTION_EVENT_ACTION_MASK = AMOTION_EVENT_ACTION_UP)) ∧
    ((on_input_event sh event).1 = true ↔
      (event.getType = AINPUT_EVENT_TYPE_MOTION ∧
        Int.land event.getAction AMOTION_EVENT_ACTION_MASK = AMOTION_EVENT_ACTION_UP)) ∧
    ((∃ key, Call.on_key key ∈ (on_input_event sh event).2.2) ↔
      (event.getType = AINPUT_EVENT_TYPE_MOTION ∧
        Int.land event.getAction AMOTION_EVENT_ACTION_MASK = AMOTION_EVENT_ACTION_UP)) ∧
    (on_input_event sh event).2.1 = sh ∧
    ∀ sh1 : ShellAndroid,
      (on_input_event sh1 event).1 = (on_input_event sh event).1 ∧
      (on_input_event sh1 event).2.2 = (on_input_event sh event).2.2 := by
  by_cases ht : event.getType = AINPUT_EVENT_TYPE_MOTION
  · by_cases ha : Int.land event.getAction AMOTION_EVENT_ACTION_MASK = AMOTION_EVENT_ACTION_UP
    · simp [on_input_event, ht, ha]
    · simp [on_input_event, ht, ha]
  · simp [on_input_event, ht]

/-! ## Sequences of lifecycle commands -/

theorem closeBeforeOpen_cons {α : Type} (o c x : α) (xs : List α) :
    CloseBeforeOpen o c (x :: xs) ↔ x = c ∨ (x ≠ o ∧ CloseBeforeOpen o c xs) := by
  constructor
  · rintro ⟨pre, post, h, hno⟩
    cases pre with
    | nil =>
      left
      simp at h
      exact h.1
    | cons y pre1 =>
      right
      simp at h hno
      obtain ⟨rfl, rfl⟩ := h
      exact ⟨fun e => hno.1 e.symm, pre1, post, rfl, hno.2⟩
  · rintro (rfl | ⟨hx, pre, post, rfl, hno⟩)
    · exact ⟨[], xs, rfl, by simp⟩
    · exact ⟨x :: pre, post, rfl, by simp [hno, Ne.symm hx]⟩

theorem doubleClose_cons {α : Type} (o c x : α) (xs : List α) :
    DoubleClose o c (x :: xs) ↔ (x = c ∧ CloseBeforeOpen o c xs) ∨ DoubleClose o c xs := by
  constructor
  · rintro ⟨pre, mid, post, h, hno⟩
    cases pre with
    | nil =>
      simp at h
      exact Or.inl ⟨h.1, mid, post, h.2, hno⟩
    | cons y pre1 =>
      simp at h
      exact Or.inr ⟨pre1, mid, post, h.2, hno⟩
  · rintro (⟨rfl, mid, post, rfl, hno⟩ | ⟨pre, mid, post, rfl, hno⟩)
    · exact ⟨[], mid, post, rfl, hno⟩
    · exact ⟨x :: pre, mid, post, rfl, hno⟩

/-- The two-state machine accepts a list exactly when the list has no double close and,
if the machine starts switched off, no close before the first open. -/
theorem pairedFrom_iff {α : Type} [DecidableEq α] (o c : α) (hoc : o ≠ c) (live : Bool)
    (l : List α) :
    pairedFrom o c live l = true ↔
      ¬ DoubleClose o c l ∧ (live = true ∨ ¬ CloseBeforeOpen o c l) := by
  induction l generalizing live with
  | nil => simp [pairedFrom, DoubleClose, CloseBeforeOpen]
  | cons x xs ih =>
    rw [doubleClose_cons, closeBeforeOpen_cons]
    by_cases hxo : x = o
    · subst hxo
      simp [pairedFrom, ih, hoc]
    · by_cases hxc : x = c
      · subst hxc
        simp [pairedFrom, hxo, ih]
        tauto
      · simp [pairedFrom, hxo, hxc, ih]

theorem on_app_cmd_shell (sh : ShellAndroid) (cmd : Int) : (on_app_cmd sh cmd).1 = sh := by
  unfold on_app_cmd
  split_ifs <;> rfl

theorem on_input_event_shell (sh : ShellAndroid) (event : AInputEvent) :
    (on_input_event sh event).2.1 = sh := by
  unfold on_input_event
  split_ifs <;> rfl

theorem dispatch_shell (sh : ShellAndroid) (cbs : List Callback) : (dispatch sh cbs).1 = sh := by
  induction cbs generalizing sh with
  | nil => rfl
  | cons cb rest ih =>
    cases cb with
    | onAppCmd cmd => simp [dispatch, ih, on_app_cmd_shell]
    | onInputEvent event => simp [dispatch, ih, on_input_event_shell]

theorem dispatch_cmd_cons (sh : ShellAndroid) (cmd : Int) (rest : List Callback) :
    (dispatch sh (Callback.onAppCmd cmd :: rest)).2 =
      (on_app_cmd sh cmd).2 ++ (dispatch sh rest).2 := by
  simp [dispatch, on_app_cmd_shell]

theorem dispatch_input_cons (sh : ShellAndroid) (event : AInputEvent) (rest : List Callback) :
    (dispatch sh (Callback.onInputEvent event :: rest)).2 =
      (on_input_event sh event).2.2 ++ (dispatch sh rest).2 := by
  simp [dispatch, on_input_event_shell]

theorem pairedFrom_dispatch (sh : ShellAndroid) (live : Bool) (cmds : List Int) :
    pairedFrom Call.create_context Call.destroy_context live
        (dispatch sh (cmds.map Callback.onAppCmd)).2 =
      pairedFrom APP_CMD_INIT_WINDOW APP_CMD_TERM_WINDOW live cmds := by
  induction cmds generalizing live with
  | nil => simp [dispatch, pairedFrom]
  | cons cmd rest ih =>
    rw [List.map_cons, dispatch_cmd_cons]
    unfold on_app_cmd
    split_ifs with h1 h2 h3 h4
    · subst h1
      simp [pairedFrom, ih]
    · subst h2
      simp [pairedFrom, ih, APP_CMD_INIT_WINDOW, APP_CMD_TERM_WINDOW]
    · simp [pairedFrom, ih, h1, h2]
    · simp [pairedFrom, ih, h1, h2]
    · simp [pairedFrom, ih, h1, h2]

theorem lifecycle_calls_dispatch (sh : ShellAndroid) (cmds : List Int) :
    (dispatch sh (cmds.map Callback.onAppCmd)).2.filter
        (fun c => decide (c = Call.create_context ∨ c = Call.destroy_context)) =
      cmds.filterMap lifecycle_call := by
  induction cmds with
  | nil => simp [dispatch]
  | cons cmd rest ih =>
    rw [List.map_cons, dispatch_cmd_cons, List.filter_append, ih, List.filterMap_cons]
    by_cases h1 : cmd = APP_CMD_INIT_WINDOW
    · subst h1
      simp [on_app_cmd, lifecycle_call]
    · by_cases h2 : cmd = APP_CMD_TERM_WINDOW
      · subst h2
        simp [on_app_cmd, lifecycle_call, APP_CMD_INIT_WINDOW, APP_CMD_TERM_WINDOW]
      · unfold on_app_cmd
        split_ifs <;> simp [lifecycle_call, h1, h2]

/-- C3, the claim refuted: from the shell without a window, the single command
window-destroyed calls `destroy_context` before any `create_context`, and the commands
window-created, window-destroyed, window-destroyed call `destroy_context` twice with no
`create_context` between the two calls. -/
theorem on_app_cmd_destroy_unpaired_counterexample :
    (dispatch ⟨false, none, 0, none⟩ ([APP_CMD_TERM_WINDOW].map Callback.onAppCmd)).2 =
      [Call.destroy_context] ∧
    CloseBeforeOpen Call.create_context Call.destroy_context
      (dispatch ⟨false, none, 0, none⟩ ([APP_CMD_TERM_WINDOW].map Callback.onAppCmd)).2 ∧
    (dispatch ⟨false, none, 0, none⟩
      ([APP_CMD_INIT_WINDOW, APP_CMD_TERM_WINDOW, APP_CMD_TERM_WINDOW].map
        Callback.onAppCmd)).2 =
      [Call.create_context, Call.resize_swapchain 0 0, Call.destroy_context,
        Call.destroy_context] ∧
    DoubleClose Call.create_context Call.destroy_context
      (dispatch ⟨false, none, 0, none⟩
        ([APP_CMD_INIT_WINDOW, APP_CMD_TERM_WINDOW, APP_CMD_TERM_WINDOW].map
          Callback.onAppCmd)).2 := by
  refine ⟨by decide, ⟨[], [], by decide, by simp⟩, by decide, ?_⟩
  exact ⟨[Call.create_context, Call.resize_swapchain 0 0], [], [], by decide, by simp⟩

/-- C3 as amended: `on_app_cmd` calls `create_context` once for every window-created command
and `destroy_context` once for every window-destroyed command, in the order of the commands
and whatever came before; so the call trace of a command sequence is free of a double
destroy and of a destroy before the first create exactly when the command sequence itself
has no two window-destroyed commands without a window-created between them and no
window-destroyed before the first window-created. -/
theorem on_app_cmd_destroy_paired_iff (sh : ShellAndroid) (cmds : List Int) :
    (dispatch sh (cmds.map Callback.onAppCmd)).2.filter
        (fun c => decide (c = Call.create_context ∨ c = Call.destroy_context)) =
      cmds.filterMap lifecycle_call ∧
    ((¬ DoubleClose Call.create_context Call.destroy_context
          (dispatch sh (cmds.map Callback.onAppCmd)).2 ∧
        ¬ CloseBeforeOpen Call.create_context Call.destroy_context
          (dispatch sh (cmds.map Callback.onAppCmd)).2) ↔
      (¬ DoubleClose APP_CMD_INIT_WINDOW APP_CMD_TERM_WINDOW cmds ∧
        ¬ CloseBeforeOpen APP_CMD_INIT_WINDOW APP_CMD_TERM_WINDOW cmds)) := by
  refine ⟨lifecycle_calls_dispatch sh cmds, ?_⟩
  have h1 := pairedFrom_iff Call.create_context Call.destroy_context (by decide) false
    (dispatch sh (cmds.map Callback.onAppCmd)).2
  have h2 := pairedFrom_iff APP_CMD_INIT_WINDOW APP_CMD_TERM_WINDOW (by decide) false cmds
  rw [pairedFrom_dispatch] at h1
  simp only [Bool.false_eq_true, false_or] at h1 h2
  rw [← h1, ← h2]

/-- C4, the claim refuted: from the shell without a window, the events window-created,
window-resized, pointer release, window-destroyed produce two calls
`resize_swapchain(0, 0)`, not one. -/
theorem end_to_end_two_resizes_counterexample :
    (dispatch ⟨false, none, 0, none⟩
      [Callback.onAppCmd APP_CMD_INIT_WINDOW, Callback.onAppCmd APP_CMD_WINDOW_RESIZED,
        Callback.onInputEvent ⟨AINPUT_EVENT_TYPE_MOTION, AMOTION_EVENT_ACTION_UP⟩,
        Callback.onAppCmd APP_CMD_TERM_WINDOW]).2 =
      [Call.create_context, Call.resize_swapchain 0 0, Call.resize_swapchain 0 0,
        Call.on_key Key.KEY_SPACE, Call.destroy_context] ∧
    (dispatch ⟨false, none, 0, none⟩
      [Callback.onAppCmd APP_CMD_INIT_WINDOW, Callback.onAppCmd APP_CMD_WINDOW_RESIZED,
        Callback.onInputEvent ⟨AINPUT_EVENT_TYPE_MOTION, AMOTION_EVENT_ACTION_UP⟩,
        Callback.onAppCmd APP_CMD_TERM_WINDOW]).2.count (Call.resize_swapchain 0 0) ≠ 1 := by
  decide

/-- C4 as amended: from every shell, in particular one without a window, the events window-created, window-resized,
pointer release, window-destroyed produce exactly the calls `create_context`,
`resize_swapchain(0, 0)`, `resize_swapchain(0, 0)`, `game_.on_key(KEY_SPACE)`,
`destroy_context`, in this order: one create, two resizes with the sentinel size (the first
made by window-created, the second by window-resized), one input signal, one destroy. -/
theorem end_to_end_trace (sh : ShellAndroid) (event : AInputEvent) (hup : is_pointer_up event) :
    dispatch sh
      [Callback.onAppCmd APP_CMD_INIT_WINDOW, Callback.onAppCmd APP_CMD_WINDOW_RESIZED,
        Callback.onInputEvent event, Callback.onAppCmd APP_CMD_TERM_WINDOW] =
      (sh, [Call.create_context, Call.resize_swapchain 0 0, Call.resize_swapchain 0 0,
        Call.on_key Key.KEY_SPACE, Call.destroy_context]) ∧
    (on_app_cmd sh APP_CMD_INIT_WINDOW).2 = [Call.create_context, Call.resize_swapchain 0 0] ∧
    (on_app_cmd sh APP_CMD_WINDOW_RESIZED).2 = [Call.resize_swapchain 0 0] ∧
    (on_input_event sh event).2.2 = [Call.on_key Key.KEY_SPACE] ∧
    (on_app_cmd sh APP_CMD_TERM_WINDOW).2 = [Call.destroy_context] := by
  obtain ⟨ht, ha⟩ := hup
  simp [dispatch, on_app_cmd, on_input_event, ht, ha, APP_CMD_INIT_WINDOW,
    APP_CMD_WINDOW_RESIZED, APP_CMD_TERM_WINDOW]

/-- Witness for C4 as amended: the shell without a window and the plain pointer release. -/
theorem end_to_end_trace_witness :
    (⟨false, none, 0, none⟩ : ShellAndroid).window = none ∧
    is_pointer_up ⟨AINPUT_EVENT_TYPE_MOTION, AMOTION_EVENT_ACTION_UP⟩ ∧
    dispatch ⟨false, none, 0, none⟩
      [Callback.onAppCmd APP_CMD_INIT_WINDOW, Callback.onAppCmd APP_CMD_WINDOW_RESIZED,
        Callback.onInputEvent ⟨AINPUT_EVENT_TYPE_MOTION, AMOTION_EVENT_ACTION_UP⟩,
        Callback.onAppCmd APP_CMD_TERM_WINDOW] =
      (⟨false, none, 0, none⟩,
        [Call.create_context, Call.resize_swapchain 0 0, Call.resize_swapchain 0 0,
          Call.on_key Key.KEY_SPACE, Call.destroy_context]) :=
  ⟨rfl, ⟨rfl, by decide⟩,
    (end_to_end_trace ⟨false, none, 0, none⟩ ⟨AINPUT_EVENT_TYPE_MOTION, AMOTION_EVENT_ACTION_UP⟩
      ⟨rfl, by decide⟩).1⟩

/-! ## The run loop -/

theorem poll_timeout_eq (sh : ShellAndroid) :
    poll_timeout sh = if sh.animate = true ∧ sh.window ≠ none then 0 else -1 := by
  unfold poll_timeout
  cases sh.animate <;> cases sh.window <;> simp

theorem on_app_cmd_calls_handler (sh : ShellAndroid) (cmd : Int) :
    ∀ c ∈ (on_app_cmd sh cmd).2, c.isHandlerCall = true := by
  unfold on_app_cmd
  split_ifs <;> simp [Call.isHandlerCall]

theorem on_input_event_calls_handler (sh : ShellAndroid) (event : AInputEvent) :
    ∀ c ∈ (on_input_event sh event).2.2, c.isHandlerCall = true := by
  unfold on_input_event
  split_ifs <;> simp [Call.isHandlerCall]

theorem dispatch_calls_handler (sh : ShellAndroid) (cbs : List Callback) :
    ∀ c ∈ (dispatch sh cbs).2, c.isHandlerCall = true := by
  induction cbs with
  | nil => simp [dispatch]
  | cons cb rest ih =>
    cases cb with
    | onAppCmd cmd =>
      rw [dispatch_cmd_cons]
      intro c hc
      rcases List.mem_append.mp hc with h | h
      · exact on_app_cmd_calls_handler sh cmd c h
      · exact ih c h
    | onInputEvent event =>
      rw [dispatch_input_cons]
      intro c hc
      rcases List.mem_append.mp hc with h | h
      · exact on_input_event_calls_handler sh event c h
      · exact ih c h

theorem process_shell (sh : ShellAndroid) (source : android_poll_source) :
    (process sh source).1 =
      { sh with window := source.window, destroyRequested := source.destroyRequested } := by
  simp [process, dispatch_shell]

theorem process_calls_handler (sh : ShellAndroid) (source : android_poll_source) :
    ∀ c ∈ (process sh source).2, c.isHandlerCall = true := by
  simpa [process] using dispatch_calls_handler sh source.callbacks

theorem poll_timeouts_handler (l : List Call) (h : ∀ c ∈ l, c.isHandlerCall = true) :
    poll_timeouts l = [] := by
  induction l with
  | nil => rfl
  | cons x xs ih =>
    have hx := h x (by simp)
    have hxs := ih (fun c hc => h c (by simp [hc]))
    unfold poll_timeouts at hxs ⊢
    cases x <;> simp_all [Call.isHandlerCall]

theorem poll_timeouts_append (l1 l2 : List Call) :
    poll_timeouts (l1 ++ l2) = poll_timeouts l1 ++ poll_timeouts l2 := by
  simp [poll_timeouts, List.filterMap_append]

theorem drain_cons_neg (sh : ShellAndroid) (p : PollResult) (ps : List PollResult)
    (h : p.ident < 0) :
    drain sh (p :: ps) = ([Call.ALooper_pollAll (poll_timeout sh)], sh, some ps) := by
  simp [drain, h]

theorem drain_cons_source (sh : ShellAndroid) (p : PollResult) (ps : List PollResult)
    (source : android_poll_source) (h : ¬ p.ident < 0) (hs : p.source = some source) :
    drain sh (p :: ps) =
      (Call.ALooper_pollAll (poll_timeout sh) ::
          ((process sh source).2 ++ (drain (process sh source).1 ps).1),
        (drain (process sh source).1 ps).2.1, (drain (process sh source).1 ps).2.2) := by
  simp [drain, h, hs]

theorem drain_cons_null (sh : ShellAndroid) (p : PollResult) (ps : List PollResult)
    (h : ¬ p.ident < 0) (hs : p.source = none) :
    drain sh (p :: ps) =
      (Call.ALooper_pollAll (poll_timeout sh) :: (drain sh ps).1,
        (drain sh ps).2.1, (drain sh ps).2.2) := by
  simp [drain, h, hs]

theorem drain_animate (sh : ShellAndroid) (polls : List PollResult) :
    (drain sh polls).2.1.animate = sh.animate := by
  induction polls generalizing sh with
  | nil => rfl
  | cons p ps ih =>
    by_cases h : p.ident < 0
    · rw [drain_cons_neg sh p ps h]
    · cases hs : p.source with
      | none =>
        rw [drain_cons_null sh p ps h hs]
        exact ih sh
      | some source =>
        rw [drain_cons_source sh p ps source h hs]
        simp only
        rw [ih, process_shell]

/-- The timeouts used by one event drain are those computed from the poll answers; what is
left of the expected timeouts belongs to the answers not yet consumed. -/
theorem drain_timeouts (sh : ShellAndroid) (polls : List PollResult) :
    match (drain sh polls).2.2 with
    | none => poll_timeouts (drain sh polls).1 = expected_timeouts sh.animate sh.window polls
    | some rest =>
      expected_timeouts sh.animate sh.window polls =
        poll_timeouts (drain sh polls).1 ++
          expected_timeouts sh.animate (drain sh polls).2.1.window rest := by
  induction polls generalizing sh with
  | nil => simp [drain, expected_timeouts, poll_timeouts]
  | cons p ps ih =>
    by_cases h : p.ident < 0
    · rw [drain_cons_neg sh p ps h]
      simp [expected_timeouts, window_after, h, poll_timeouts, poll_timeout_eq]
    · cases hs : p.source with
      | none =>
        rw [drain_cons_null sh p ps h hs]
        have := ih sh
        simp only [expected_timeouts, window_after, h, hs, if_false]
        cases hr : (drain sh ps).2.2 with
        | none =>
          rw [hr] at this
          simp only at this ⊢
          simp [poll_timeouts, poll_timeout_eq] at this ⊢
          exact this
        | some rest =>
          rw [hr] at this
          simp only at this ⊢
          simp [poll_timeouts, poll_timeout_eq] at this ⊢
          exact this
      | some source =>
        rw [drain_cons_source sh p ps source h hs]
        have := ih (process sh source).1
        have hw : (process sh source).1.window = source.window := by rw [process_shell]
        have ha : (process sh source).1.animate = sh.animate := by rw [process_shell]
        rw [hw, ha] at this
        have hh := poll_timeouts_handler _ (process_calls_handler sh source)
        simp only [expected_timeouts, window_after, h, hs, if_false]
        cases hr : (drain (process sh source).1 ps).2.2 with
        | none =>
          rw [hr] at this
          simp only at this ⊢
          rw [← this]
          rw [show Call.ALooper_pollAll (poll_timeout sh) ::
              ((process sh source).2 ++ (drain (process sh source).1 ps).1) =
            [Call.ALooper_pollAll (poll_timeout sh)] ++
              ((process sh source).2 ++ (drain (process sh source).1 ps).1) from rfl,
            poll_timeouts_append, poll_timeouts_append, hh]
          simp [poll_timeouts, poll_timeout_eq]
        | some rest =>
          rw [hr] at this
          simp only at this ⊢
          rw [this]
          rw [show Call.ALooper_pollAll (poll_timeout sh) ::
              ((process sh source).2 ++ (drain (process sh source).1 ps).1) =
            [Call.ALooper_pollAll (poll_timeout sh)] ++
              ((process sh source).2 ++ (drain (process sh source).1 ps).1) from rfl,
            poll_timeouts_append, poll_timeouts_append, hh]
          simp [poll_timeouts, poll_timeout_eq]

theorem run_iterations_timeouts (clock : Nat → ℚ) (n : Nat) (sh : ShellAndroid) (cur : ℚ)
    (k : Nat) (polls : List PollResult) :
    poll_timeouts ((run_iterations clock n sh cur k polls).map Iteration.calls).flatten <+:
      expected_timeouts sh.animate sh.window polls := by
  induction n generalizing sh cur k polls with
  | zero => simp [run_iterations, poll_timeouts]
  | succ n ih =>
    have hd := drain_timeouts sh polls
    have ha := drain_animate sh polls
    unfold run_iterations
    rcases hdr : drain sh polls with ⟨cs, sh1, rest⟩
    rw [hdr] at hd ha
    simp only at hd ha
    cases rest with
    | none =>
      simp only at hd ⊢
      simp [Iteration.calls, hd]
    | some rest =>
      simp only at hd ⊢
      rw [hd]
      split_ifs with h1 h2
      · simp [Iteration.calls]
      · simp only [List.map_cons, List.flatten_cons, Iteration.calls, List.append_nil,
          poll_timeouts_append]
        rw [List.prefix_append_right_inj, ← ha]
        exact ih sh1 cur k rest
      · simp only [List.map_cons, List.flatten_cons, Iteration.calls, poll_timeouts_append]
        have hf : poll_timeouts [Call.acquire_back_buffer, Call.timer_get (clock k),
            Call.add_game_time (clock k - cur), Call.present_back_buffer] = [] := by
          simp [poll_timeouts]
        rw [hf, List.append_nil, List.prefix_append_right_inj, ← ha]
        exact ih sh1 (clock k) (k + 1) rest

/-- C5: the timeout of a poll is 0 exactly when `settings_.animate` is set and `app_.window`
is not null, and -1 in every other case; and in every run, for every number of passes and
every stream of poll answers, the timeouts of the successive `ALooper_pollAll` calls are
those computed from the window that the answers handled so far have left: the choice is
made anew before each poll, so a source that sets or clears the window changes the timeout
of the next poll. -/
theorem run_poll_timeout_per_poll (clock : Nat → ℚ) (n : Nat) (sh : ShellAndroid)
    (polls : List PollResult) :
    (poll_timeout sh = 0 ↔ (sh.animate = true ∧ sh.window ≠ none)) ∧
    (poll_timeout sh = -1 ↔ ¬ (sh.animate = true ∧ sh.window ≠ none)) ∧
    poll_timeouts (run clock n sh polls) <+: expected_timeouts sh.animate sh.window polls ∧
    (∀ p ps, (drain sh (p :: ps)).1.head? = some (Call.ALooper_pollAll (poll_timeout sh))) ∧
    (∀ p ps source, ¬ p.ident < 0 → p.source = some source →
      (drain sh (p :: ps)).1 =
        Call.ALooper_pollAll (poll_timeout sh) :: ((process sh source).2 ++
          (drain { sh with window := source.window,
                           destroyRequested := source.destroyRequested } ps).1)) := by
  refine ⟨?_, ?_, ?_, ?_, ?_⟩
  · rw [poll_timeout_eq]
    split_ifs with h <;> simp [h]
  · rw [poll_timeout_eq]
    split_ifs with h <;> simp [h]
  · have h := run_iterations_timeouts clock n sh (clock 0) 1 polls
    have h0 : poll_timeouts (run clock n sh polls) =
        poll_timeouts ((run_iterations clock n sh (clock 0) 1 polls).map
          Iteration.calls).flatten := by
      simp [run, poll_timeouts]
    rw [h0]
    exact h
  · intro p ps
    by_cases h : p.ident < 0
    · rw [drain_cons_neg sh p ps h]
      rfl
    · cases hs : p.source with
      | none =>
        rw [drain_cons_null sh p ps h hs]
        rfl
      | some source =>
        rw [drain_cons_source sh p ps source h hs]
        rfl
  · intro p ps source h hs
    rw [drain_cons_source sh p ps source h hs, process_shell]

/-- Witness for C5: animation on, no window at first; the first answer carries a source that
creates the window, the fourth one that destroys it.  The timeouts are -1, 0, 0, 0, -1. -/
theorem run_poll_timeout_per_poll_witness :
    poll_timeouts (run (fun k => k) 3 ⟨true, none, 0, none⟩
      [⟨0, some ⟨[Callback.onAppCmd APP_CMD_INIT_WINDOW], some 7, 0⟩⟩, ⟨-3, none⟩, ⟨-3, none⟩,
        ⟨0, some ⟨[Callback.onAppCmd APP_CMD_TERM_WINDOW], none, 0⟩⟩, ⟨-3, none⟩]) =
      [-1, 0, 0, 0, -1] ∧
    poll_timeouts (run (fun k => k) 3 ⟨true, none, 0, none⟩
      [⟨0, some ⟨[Callback.onAppCmd APP_CMD_INIT_WINDOW], some 7, 0⟩⟩, ⟨-3, none⟩, ⟨-3, none⟩,
        ⟨0, some ⟨[Callback.onAppCmd APP_CMD_TERM_WINDOW], none, 0⟩⟩, ⟨-3, none⟩]) <+:
      expected_timeouts true none
        [⟨0, some ⟨[Callback.onAppCmd APP_CMD_INIT_WINDOW], some 7, 0⟩⟩, ⟨-3, none⟩, ⟨-3, none⟩,
          ⟨0, some ⟨[Callback.onAppCmd APP_CMD_TERM_WINDOW], none, 0⟩⟩, ⟨-3, none⟩] :=
  ⟨by decide, (run_poll_timeout_per_poll (fun k => k) 3 ⟨true, none, 0, none⟩
      [⟨0, some ⟨[Callback.onAppCmd APP_CMD_INIT_WINDOW], some 7, 0⟩⟩, ⟨-3, none⟩, ⟨-3, none⟩,
        ⟨0, some ⟨[Callback.onAppCmd APP_CMD_TERM_WINDOW], none, 0⟩⟩, ⟨-3, none⟩]).2.2.1⟩

theorem handler_call_not_timed (c : Call) (h : c.isHandlerCall = true) :
    c.isFrameCall = false ∧ c.isTimedCall = false := by
  cases c <;> simp_all [Call.isHandlerCall, Call.isFrameCall, Call.isTimedCall]

theorem drain_calls_not_timed (sh : ShellAndroid) (polls : List PollResult) :
    ∀ c ∈ (drain sh polls).1, c.isFrameCall = false ∧ c.isTimedCall = false := by
  induction polls generalizing sh with
  | nil => simp [drain]
  | cons p ps ih =>
    by_cases h : p.ident < 0
    · rw [drain_cons_neg sh p ps h]
      simp [Call.isFrameCall, Call.isTimedCall]
    · cases hs : p.source with
      | none =>
        rw [drain_cons_null sh p ps h hs]
        intro c hc
        rcases List.mem_cons.mp hc with rfl | hc
        · simp [Call.isFrameCall, Call.isTimedCall]
        · exact ih sh c hc
      | some source =>
        rw [drain_cons_source sh p ps source h hs]
        intro c hc
        rcases List.mem_cons.mp hc with rfl | hc
        · simp [Call.isFrameCall, Call.isTimedCall]
        · rcases List.mem_append.mp hc with hc | hc
          · exact handler_call_not_timed c (process_calls_handler sh source c hc)
          · exact ih _ c hc

theorem run_iterations_guarded (clock : Nat → ℚ) (n : Nat) (sh : ShellAndroid) (cur : ℚ)
    (k : Nat) (polls : List PollResult) :
    ∀ it ∈ run_iterations clock n sh cur k polls,
      (∀ c ∈ it.drained, c.isFrameCall = false) ∧
      ((∃ c ∈ it.calls, c.isFrameCall = true) →
        it.shell.destroyRequested = 0 ∧ it.shell.window ≠ none) := by
  induction n generalizing sh cur k polls with
  | zero => simp [run_iterations]
  | succ n ih =>
    have hc := drain_calls_not_timed sh polls
    unfold run_iterations
    rcases hdr : drain sh polls with ⟨cs, sh1, rest⟩
    rw [hdr] at hc
    simp only at hc
    have hidle : ∀ it : Iteration, it = ⟨cs, sh1, []⟩ →
        (∀ c ∈ it.drained, c.isFrameCall = false) ∧
        ((∃ c ∈ it.calls, c.isFrameCall = true) →
          it.shell.destroyRequested = 0 ∧ it.shell.window ≠ none) := by
      rintro it rfl
      refine ⟨fun c h => (hc c h).1, ?_⟩
      rintro ⟨c, hmem, hframe⟩
      simp only [Iteration.calls, List.append_nil] at hmem
      rw [(hc c hmem).1] at hframe
      exact absurd hframe (by decide)
    cases rest with
    | none =>
      intro it hit
      simp only [List.mem_singleton] at hit
      exact hidle it hit
    | some rest =>
      simp only
      split_ifs with h1 h2
      · intro it hit
        simp only [List.mem_singleton] at hit
        exact hidle it hit
      · intro it hit
        rcases List.mem_cons.mp hit with hit | hit
        · exact hidle it hit
        · exact ih sh1 cur k rest it hit
      · intro it hit
        rcases List.mem_cons.mp hit with hit | hit
        · subst hit
          exact ⟨fun c h => (hc c h).1, fun _ => ⟨not_not.mp h1, h2⟩⟩
        · exact ih sh1 (clock k) (k + 1) rest it hit

theorem run_iterations_idle (clock : Nat → ℚ) (n : Nat) (sh : ShellAndroid) (cur : ℚ)
    (k : Nat) (polls : List PollResult) (hwin : sh.window = none)
    (hempty : ∀ p ∈ polls, p.ident < 0) :
    ∀ it ∈ run_iterations clock n sh cur k polls,
      it.calls = [Call.ALooper_pollAll (poll_timeout sh)] ∨ it.calls = [] := by
  induction n generalizing polls with
  | zero => simp [run_iterations]
  | succ n ih =>
    cases polls with
    | nil =>
      simp [run_iterations, drain, Iteration.calls]
    | cons p ps =>
      have hp : p.ident < 0 := hempty p (by simp)
      unfold run_iterations
      rw [drain_cons_neg sh p ps hp]
      simp only
      split_ifs with h1
      · simp [Iteration.calls]
      · intro it hit
        rcases List.mem_cons.mp hit with hit | hit
        · subst hit
          simp [Iteration.calls]
        · exact ih ps (fun q hq => hempty q (by simp [hq])) it hit

/-- C6: the trace of a run is the loop-start reading followed by the calls of its passes, and
in every run, for every number of passes and every stream of poll answers, the event drain
of a pass makes no frame call, and a pass that makes a frame call (acquire, game-time update
or present) is a pass whose shell after the drain has `destroyRequested` clear and a non-null
window.  In particular, with animation off and no window, when every poll returns without an
event, the run makes no frame call, however many passes it takes: it only polls, with
timeout -1. -/
theorem run_frames_only_with_live_window (clock : Nat → ℚ) (n : Nat) (sh : ShellAndroid)
    (polls : List PollResult) :
    run clock n sh polls =
      Call.timer_get (clock 0) ::
        ((run_iterations clock n sh (clock 0) 1 polls).map
          (fun it => it.drained ++ it.frame)).flatten ∧
    (∀ it ∈ run_iterations clock n sh (clock 0) 1 polls,
      (∀ c ∈ it.drained, c.isFrameCall = false) ∧
      ((∃ c ∈ it.drained ++ it.frame, c.isFrameCall = true) →
        it.shell.destroyRequested = 0 ∧ it.shell.window ≠ none)) ∧
    (sh.animate = false → sh.window = none → (∀ p ∈ polls, p.ident < 0) →
      ∀ c ∈ run clock n sh polls,
        c.isFrameCall = false ∧
          (c = Call.timer_get (clock 0) ∨ c = Call.ALooper_pollAll (-1))) := by
  refine ⟨rfl, run_iterations_guarded clock n sh (clock 0) 1 polls, ?_⟩
  intro hanim hwin hempty c hc
  have hidle := run_iterations_idle clock n sh (clock 0) 1 polls hwin hempty
  have hto : poll_timeout sh = -1 := by
    rw [poll_timeout_eq]
    simp [hanim]
  rw [hto] at hidle
  simp only [run, List.mem_cons, List.mem_flatten, List.mem_map] at hc
  rcases hc with rfl | ⟨l, ⟨it, hit, rfl⟩, hcl⟩
  · exact ⟨rfl, Or.inl rfl⟩
  · rcases hidle it hit with h | h
    · rw [h] at hcl
      simp only [List.mem_singleton] at hcl
      subst hcl
      exact ⟨rfl, Or.inr rfl⟩
    · rw [h] at hcl
      simp at hcl

/-- Witness for C6: animation off, no window, three polls that return without an event; five
passes make no frame call, only the three polls with timeout -1.  And in the sample run the
pass that acquires a back buffer has the window 7 and no destroy request. -/
theorem run_frames_only_with_live_window_witness :
    run sample_clock 5 ⟨false, none, 0, none⟩ [⟨-3, none⟩, ⟨-3, none⟩, ⟨-3, none⟩] =
      [Call.timer_get 1, Call.ALooper_pollAll (-1), Call.ALooper_pollAll (-1),
        Call.ALooper_pollAll (-1)] ∧
    (∀ c ∈ run sample_clock 5 ⟨false, none, 0, none⟩ [⟨-3, none⟩, ⟨-3, none⟩, ⟨-3, none⟩],
      c.isFrameCall = false ∧
        (c = Call.timer_get (sample_clock 0) ∨ c = Call.ALooper_pollAll (-1))) ∧
    (∀ it ∈ run_iterations sample_clock 2 ⟨true, none, 0, none⟩ (sample_clock 0) 1 sample_polls,
      Call.acquire_back_buffer ∈ it.drained ++ it.frame →
        it.shell.destroyRequested = 0 ∧ it.shell.window ≠ none) :=
  ⟨by decide,
    (run_frames_only_with_live_window sample_clock 5 ⟨false, none, 0, none⟩
      [⟨-3, none⟩, ⟨-3, none⟩, ⟨-3, none⟩]).2.2 rfl rfl (by decide),
    fun it hit hmem =>
      ((run_frames_only_with_live_window sample_clock 2 ⟨true, none, 0, none⟩
        sample_polls).2.1 it hit).2 ⟨Call.acquire_back_buffer, hmem, rfl⟩⟩

theorem filter_timed_drain (sh : ShellAndroid) (polls : List PollResult) :
    (drain sh polls).1.filter Call.isTimedCall = [] := by
  rw [List.filter_eq_nil_iff]
  intro c hc
  rw [(drain_calls_not_timed sh polls c hc).2]
  decide

theorem range_succ_flatMap_shift (clock : Nat → ℚ) (k m : Nat) :
    (List.range (m + 1)).flatMap (fun j => frame_of clock (k + j)) =
      frame_of clock k ++ (List.range m).flatMap (fun j => frame_of clock (k + 1 + j)) := by
  rw [List.range_succ_eq_map, List.flatMap_cons, List.flatMap_map]
  have : (fun a => frame_of clock (k + Nat.succ a)) = fun j => frame_of clock (k + 1 + j) := by
    funext a
    congr 1
    omega
  rw [this]
  rfl

/-- The timed calls of the passes of a run are whole frames with consecutive readings,
each updating the game by the time since the reading before it. -/
theorem run_iterations_frames (clock : Nat → ℚ) (n : Nat) (sh : ShellAndroid) (k : Nat)
    (polls : List PollResult) :
    ∃ m, (((run_iterations clock n sh (clock k) (k + 1) polls).map
        Iteration.calls).flatten).filter Call.isTimedCall =
      (List.range m).flatMap (fun j => frame_of clock (k + j)) := by
  induction n generalizing sh k polls with
  | zero => exact ⟨0, by simp [run_iterations]⟩
  | succ n ih =>
    have hc := filter_timed_drain sh polls
    unfold run_iterations
    rcases hdr : drain sh polls with ⟨cs, sh1, rest⟩
    rw [hdr] at hc
    simp only at hc
    cases rest with
    | none => exact ⟨0, by simp [Iteration.calls, hc]⟩
    | some rest =>
      simp only
      split_ifs with h1 h2
      · exact ⟨0, by simp [Iteration.calls, hc]⟩
      · obtain ⟨m, hm⟩ := ih sh1 k rest
        refine ⟨m, ?_⟩
        simp only [List.map_cons, List.flatten_cons, Iteration.calls, List.append_nil,
          List.filter_append, hc, List.nil_append]
        exact hm
      · obtain ⟨m, hm⟩ := ih sh1 (k + 1) rest
        refine ⟨m + 1, ?_⟩
        rw [range_succ_flatMap_shift]
        simp only [List.map_cons, List.flatten_cons, Iteration.calls, List.filter_append, hc,
          List.nil_append]
        rw [hm]
        rfl

theorem count_present_frames (clock : Nat → ℚ) (m : Nat) :
    ((List.range m).flatMap (fun j => frame_of clock j)).count Call.present_back_buffer = m := by
  induction m with
  | zero => rfl
  | succ m ih =>
    rw [List.range_succ, List.flatMap_append, List.count_append, ih]
    simp [frame_of]

theorem durations_frames (clock : Nat → ℚ) (m : Nat) :
    durations ((List.range m).flatMap (fun j => frame_of clock j)) =
      (List.range m).map (fun j => clock (j + 1) - clock j) := by
  induction m with
  | zero => rfl
  | succ m ih =>
    rw [List.range_succ, List.flatMap_append, List.map_append]
    unfold durations at ih ⊢
    rw [List.filterMap_append, ih]
    simp [frame_of]

theorem durations_filter_timed (l : List Call) :
    durations (l.filter Call.isTimedCall) = durations l := by
  induction l with
  | nil => rfl
  | cons x xs ih =>
    unfold durations at ih ⊢
    cases x <;> simp_all [Call.isTimedCall, List.filter_cons]

theorem sum_range_differences (clock : Nat → ℚ) (i : Nat) :
    ((List.range i).map (fun j => clock (j + 1) - clock j)).sum = clock i - clock 0 := by
  induction i with
  | zero => simp
  | succ i ih =>
    rw [List.range_succ, List.map_append, List.sum_append, ih]
    simp

/-- C10: in every run, for every number of passes and every stream of poll answers, the timed
calls of the trace are the reading at loop start followed by whole frames, one per present
call, each made of acquire, the next reading `t`, the game-time update by `t` minus the
reading before, present, in this order.  Hence the duration passed for a frame is its reading
minus the reading of the frame before (the loop-start reading for the first frame), whatever
passes without a window lie between them, and the durations of the first `i` frames sum to
reading number `i` minus the loop-start reading. -/
theorem run_frame_timing (clock : Nat → ℚ) (n : Nat) (sh : ShellAndroid)
    (polls : List PollResult) :
    (run clock n sh polls).filter Call.isTimedCall =
      Call.timer_get (clock 0) ::
        (List.range ((run clock n sh polls).count Call.present_back_buffer)).flatMap
          (fun j => frame_of clock j) ∧
    durations (run clock n sh polls) =
      (List.range ((run clock n sh polls).count Call.present_back_buffer)).map
        (fun j => clock (j + 1) - clock j) ∧
    ∀ i, i ≤ (run clock n sh polls).count Call.present_back_buffer →
      ((durations (run clock n sh polls)).take i).sum = clock i - clock 0 := by
  obtain ⟨m, hm⟩ := run_iterations_frames clock n sh 0 polls
  simp only [Nat.zero_add] at hm
  have hfilter : (run clock n sh polls).filter Call.isTimedCall =
      Call.timer_get (clock 0) :: (List.range m).flatMap (fun j => frame_of clock j) := by
    unfold run
    rw [List.filter_cons, ← hm]
    simp [Call.isTimedCall]
  have hcount : (run clock n sh polls).count Call.present_back_buffer = m := by
    rw [← List.count_filter (p := Call.isTimedCall) (by rfl), hfilter, List.count_cons,
      count_present_frames]
    simp
  have hdur : durations (run clock n sh polls) =
      (List.range m).map (fun j => clock (j + 1) - clock j) := by
    rw [← durations_filter_timed, hfilter, ← durations_frames]
    simp [durations]
  rw [hcount]
  refine ⟨hfilter, hdur, ?_⟩
  intro i hi
  rw [hdur, ← List.map_take, List.take_range, min_eq_left hi]
  exact sum_range_differences clock i

/-- Witness for C10: a window appears, two frames are produced at readings 3 and 7 after the
loop-start reading 1, with a pass without a window before them; the durations are 2 and 4
and sum to 7 - 1. -/
theorem run_frame_timing_witness :
    (run sample_clock 4 ⟨true, none, 0, none⟩ sample_polls).count Call.present_back_buffer = 2 ∧
    durations (run sample_clock 4 ⟨true, none, 0, none⟩ sample_polls) = [2, 4] ∧
    ((durations (run sample_clock 4 ⟨true, none, 0, none⟩ sample_polls)).take 2).sum =
      7 - 1 := by
  have hcount : (run sample_clock 4 ⟨true, none, 0, none⟩ sample_polls).count
      Call.present_back_buffer = 2 := by decide
  have h := run_frame_timing sample_clock 4 ⟨true, none, 0, none⟩ sample_polls
  rw [hcount] at h
  refine ⟨hcount, ?_, ?_⟩
  · rw [h.2.1]
    norm_num [List.range_succ, sample_clock]
  · rw [h.2.2 2 (le_refl 2)]
    norm_num [sample_clock]

end Hologram
